import Mathlib

/-!
Verification of the `node` package: a minimal HTML node builder and renderer
(`node.go`). The `Node` data type, its constructors, `Add`, and the recursive
`Render` traversal are embedded below; `Render` is modelled against an abstract
output sink that may fail at a chosen write index, and it additionally returns
the tree as left behind by the call (the Go methods take pointer receivers, so
tree preservation is a theorem, not a modelling assumption).
-/

namespace HtmlNode

/-- Source `NodeTypeTag` from node.go: `NodeType` is a Go `int`; the `iota` block makes
the tag discriminant 0. -/
def NodeTypeTag : Int := 0

/-- Source `NodeTypeAttr` from node.go: discriminant 1. -/
def NodeTypeAttr : Int := 1

/-- Source `NodeTypeText` from node.go: discriminant 2. -/
def NodeTypeText : Int := 2

/-- The `Node` struct from node.go: a discriminant (`Type`, a Go `int`), the
tag name, attribute key, attribute/text value, children, attributes, and the
self-closing flag. the Go struct with recursive slices becomes a nested
inductive. -/
inductive Node where
  | mk (type : Int) (tag : String) (key : String) (value : String)
       (children : List Node) (attributes : List Node) (selfClose : Bool)

/-- Field accessor for `Type`. -/
def Node.type : Node → Int
  | .mk t _ _ _ _ _ _ => t

/-- Field accessor for `Tag`. -/
def Node.tag : Node → String
  | .mk _ tg _ _ _ _ _ => tg

/-- Field accessor for `Key`. -/
def Node.key : Node → String
  | .mk _ _ k _ _ _ _ => k

/-- Field accessor for `Value`. -/
def Node.value : Node → String
  | .mk _ _ _ v _ _ _ => v

/-- Field accessor for `Children`. -/
def Node.children : Node → List Node
  | .mk _ _ _ _ cs _ _ => cs

/-- Field accessor for `Attributes`. -/
def Node.attributes : Node → List Node
  | .mk _ _ _ _ _ ats _ => ats

/-- Field accessor for `SelfClose`. -/
def Node.selfClose : Node → Bool
  | .mk _ _ _ _ _ _ sc => sc

/-- The Go function `html.EscapeString` replaces the five special characters
`&` (38), `'` (39), `<` (60), `>` (62), `"` (34) by `&amp;` `&#39;` `&lt;`
`&gt;` `&#34;` and leaves every other character as itself. Per-character
action of that replacement. -/
def escapeChar (c : Char) : String :=
  if c = Char.ofNat 38 then "&amp;"
  else if c = Char.ofNat 39 then "&#39;"
  else if c = Char.ofNat 60 then "&lt;"
  else if c = Char.ofNat 62 then "&gt;"
  else if c = Char.ofNat 34 then "&#34;"
  else String.singleton c

/-- The Go function `html.EscapeString`: each character replaced independently, once. -/
def escapeString (s : String) : String :=
  String.join (s.data.map escapeChar)

/-- Abstract output sink (`io.Writer`). A write fails exactly when its index
(0-based, counting every write attempted on this sink) equals `failAt`;
`errMsg` is the error value the sink returns on that failure. `failAt = none`
is a sink that never fails. -/
structure Sink where
  failAt : Option Nat
  errMsg : String

/-- Observable state of the sink: how many writes were attempted so far, and
the bytes successfully written. -/
structure WState where
  count : Nat
  out : String
deriving DecidableEq

/-- The errors `Render` can return: a sink write error propagated verbatim, or
the `fmt.Errorf("unknown node type: %d", n.Type)` default-branch error. -/
inductive RenderErr where
  | sinkErr (msg : String)
  | unknownType (t : Int)
deriving DecidableEq

/-- One sink write (`w.Write` / `io.WriteString`): if the index of this write equals
the failing index of the sink, the sink returns its error and nothing is appended;
otherwise the data is appended. Either way the attempt is counted. -/
def writeS (s : Sink) (st : WState) (d : String) : WState × Option RenderErr :=
  if s.failAt = some st.count then
    (⟨st.count + 1, st.out⟩, some (.sinkErr s.errMsg))
  else
    (⟨st.count + 1, st.out ++ d⟩, none)

/-- Source `renderAttr` from node.go: write the key verbatim; if the value is
non-empty write `="`, the escaped value, `"`. Any write error is returned
immediately. -/
def renderAttr (n : Node) (s : Sink) (st : WState) : WState × Option RenderErr :=
  match writeS s st n.key with
  | (st1, some e) => (st1, some e)
  | (st1, none) =>
    if n.value ≠ "" then
      match writeS s st1 "=\"" with
      | (st2, some e) => (st2, some e)
      | (st2, none) =>
        match writeS s st2 (escapeString n.value) with
        | (st3, some e) => (st3, some e)
        | (st3, none) => writeS s st3 "\""
    else (st1, none)

/-- Source `renderText` from node.go: one write of the escaped value. -/
def renderText (n : Node) (s : Sink) (st : WState) : WState × Option RenderErr :=
  writeS s st (escapeString n.value)

mutual

/-- Source `Node.Render` from node.go. The `NodeTypeTag` branch inlines `renderTag`
(which is called only from here): `<`, tag, the attribute loop, then either
`/>` (self-closing, children skipped) or `>`, the child loop, `</`, tag, `>`;
every failed write returns its error at once. The result carries the node as
left by the call, the sink state, and the returned error (if any). -/
def render : Node → Sink → WState → Node × WState × Option RenderErr
  | .mk t tag key value children attributes sc, s, st =>
    if t = NodeTypeTag then
      match writeS s st "<" with
      | (st1, some e) => (.mk t tag key value children attributes sc, st1, some e)
      | (st1, none) =>
        match writeS s st1 tag with
        | (st2, some e) => (.mk t tag key value children attributes sc, st2, some e)
        | (st2, none) =>
          match renderAttrLoop attributes s st2 with
          | (ats2, st3, some e) => (.mk t tag key value children ats2 sc, st3, some e)
          | (ats2, st3, none) =>
            if sc then
              match writeS s st3 "/>" with
              | (st4, r) => (.mk t tag key value children ats2 sc, st4, r)
            else
              match writeS s st3 ">" with
              | (st4, some e) => (.mk t tag key value children ats2 sc, st4, some e)
              | (st4, none) =>
                match renderChildLoop children s st4 with
                | (cs2, st5, some e) => (.mk t tag key value cs2 ats2 sc, st5, some e)
                | (cs2, st5, none) =>
                  match writeS s st5 "</" with
                  | (st6, some e) => (.mk t tag key value cs2 ats2 sc, st6, some e)
                  | (st6, none) =>
                    match writeS s st6 tag with
                    | (st7, some e) => (.mk t tag key value cs2 ats2 sc, st7, some e)
                    | (st7, none) =>
                      match writeS s st7 ">" with
                      | (st8, r) => (.mk t tag key value cs2 ats2 sc, st8, r)
    else if t = NodeTypeAttr then
      match renderAttr (.mk t tag key value children attributes sc) s st with
      | (st1, r) => (.mk t tag key value children attributes sc, st1, r)
    else if t = NodeTypeText then
      match renderText (.mk t tag key value children attributes sc) s st with
      | (st1, r) => (.mk t tag key value children attributes sc, st1, r)
    else
      (.mk t tag key value children attributes sc, st, some (.unknownType t))

/-- The attribute loop of `renderTag`: for each attribute node in stored order,
write a single space, then render the attribute node; stop at the first
error. -/
def renderAttrLoop : List Node → Sink → WState → List Node × WState × Option RenderErr
  | [], _, st => ([], st, none)
  | a :: rest, s, st =>
    match writeS s st " " with
    | (st1, some e) => (a :: rest, st1, some e)
    | (st1, none) =>
      match render a s st1 with
      | (a2, st2, some e) => (a2 :: rest, st2, some e)
      | (a2, st2, none) =>
        match renderAttrLoop rest s st2 with
        | (rest2, st3, r) => (a2 :: rest2, st3, r)

/-- The child loop of `renderTag`: render each child node in stored order;
stop at the first error. -/
def renderChildLoop : List Node → Sink → WState → List Node × WState × Option RenderErr
  | [], _, st => ([], st, none)
  | c :: rest, s, st =>
    match render c s st with
    | (c2, st1, some e) => (c2 :: rest, st1, some e)
    | (c2, st1, none) =>
      match renderChildLoop rest s st1 with
      | (rest2, st2, r) => (c2 :: rest2, st2, r)

end

/-- The loop body of `separateChildrenAndAttrs` from node.go, with the two
accumulating slices explicit: attribute nodes are appended to `attrs`,
everything else to `children`. -/
def sepLoop : List Node → List Node → List Node → List Node × List Node
  | [], children, attrs => (children, attrs)
  | node :: rest, children, attrs =>
    if node.type = NodeTypeAttr then sepLoop rest children (attrs ++ [node])
    else sepLoop rest (children ++ [node]) attrs

/-- Source `separateChildrenAndAttrs` from node.go. -/
def separateChildrenAndAttrs (nodes : List Node) : List Node × List Node :=
  sepLoop nodes [] []

/-- Source `Node.Add` from node.go: partition the arguments, then append the children
part to `Children` and the attribute part to `Attributes` (each only when
non-empty, as the Go code guards with `len(...) > 0`). Returns the updated
node (the Go method mutates through the pointer receiver). -/
def Node.add (n : Node) (nodes : List Node) : Node :=
  match n with
  | .mk t tag key value cs ats sc =>
    .mk t tag key value
      (if (separateChildrenAndAttrs nodes).1.length > 0
       then cs ++ (separateChildrenAndAttrs nodes).1 else cs)
      (if (separateChildrenAndAttrs nodes).2.length > 0
       then ats ++ (separateChildrenAndAttrs nodes).2 else ats)
      sc

/-- Source `Div` from node.go. -/
def Div (nodes : List Node) : Node :=
  match separateChildrenAndAttrs nodes with
  | (children, attrs) => .mk NodeTypeTag "div" "" "" children attrs false

/-- Source `Span` from node.go. -/
def Span (nodes : List Node) : Node :=
  match separateChildrenAndAttrs nodes with
  | (children, attrs) => .mk NodeTypeTag "span" "" "" children attrs false

/-- Source `P` from node.go. -/
def P (nodes : List Node) : Node :=
  match separateChildrenAndAttrs nodes with
  | (children, attrs) => .mk NodeTypeTag "p" "" "" children attrs false

/-- Source `H1` from node.go. -/
def H1 (nodes : List Node) : Node :=
  match separateChildrenAndAttrs nodes with
  | (children, attrs) => .mk NodeTypeTag "h1" "" "" children attrs false

/-- Source `A` from node.go. -/
def A (nodes : List Node) : Node :=
  match separateChildrenAndAttrs nodes with
  | (children, attrs) => .mk NodeTypeTag "a" "" "" children attrs false

/-- Source `Button` from node.go. -/
def Button (nodes : List Node) : Node :=
  match separateChildrenAndAttrs nodes with
  | (children, attrs) => .mk NodeTypeTag "button" "" "" children attrs false

/-- Source `Input` from node.go: self-closing. -/
def Input (nodes : List Node) : Node :=
  match separateChildrenAndAttrs nodes with
  | (children, attrs) => .mk NodeTypeTag "input" "" "" children attrs true

/-- Source `Img` from node.go: self-closing. -/
def Img (nodes : List Node) : Node :=
  match separateChildrenAndAttrs nodes with
  | (children, attrs) => .mk NodeTypeTag "img" "" "" children attrs true

/-- Source `Class` from node.go. -/
def Class (value : String) : Node :=
  .mk NodeTypeAttr "" "class" value [] [] false

/-- Source `ID` from node.go. -/
def ID (value : String) : Node :=
  .mk NodeTypeAttr "" "id" value [] [] false

/-- Source `Href` from node.go. -/
def Href (value : String) : Node :=
  .mk NodeTypeAttr "" "href" value [] [] false

/-- Source `Src` from node.go. -/
def Src (value : String) : Node :=
  .mk NodeTypeAttr "" "src" value [] [] false

/-- Source `Alt` from node.go. -/
def Alt (value : String) : Node :=
  .mk NodeTypeAttr "" "alt" value [] [] false

/-- Source `Type` from node.go (named `TypeAttr` here: `Type` is a Lean keyword). -/
def TypeAttr (value : String) : Node :=
  .mk NodeTypeAttr "" "type" value [] [] false

/-- Source `Value` from node.go. -/
def Value (value : String) : Node :=
  .mk NodeTypeAttr "" "value" value [] [] false

/-- Source `Placeholder` from node.go. -/
def Placeholder (value : String) : Node :=
  .mk NodeTypeAttr "" "placeholder" value [] [] false

/-- Source `Disabled` from node.go: boolean attribute, empty value. -/
def Disabled : Node :=
  .mk NodeTypeAttr "" "disabled" "" [] [] false

/-- Source `Required` from node.go: boolean attribute, empty value. -/
def Required : Node :=
  .mk NodeTypeAttr "" "required" "" [] [] false

/-- Source `Attr` from node.go. -/
def Attr (key value : String) : Node :=
  .mk NodeTypeAttr "" key value [] [] false

/-- Source `Text` from node.go. -/
def Text (content : String) : Node :=
  .mk NodeTypeText "" "" content [] [] false

/-- The Go zero value of `Node`: discriminant 0, empty strings, nil slices,
false flag. -/
def zeroNode : Node :=
  .mk 0 "" "" "" [] [] false

mutual

/-- A node whose discriminant, and recursively every discriminant in its
attribute and child subtrees, is one of the three defined `NodeType`
values. -/
def wellFormed : Node → Bool
  | .mk t _ _ _ children attributes _ =>
    (decide (t = NodeTypeTag) || decide (t = NodeTypeAttr) || decide (t = NodeTypeText))
      && wfList children && wfList attributes

/-- Source `wellFormed` on every node of a list. -/
def wfList : List Node → Bool
  | [] => true
  | c :: rest => wellFormed c && wfList rest

end

mutual

/-- The byte sequence the spec says rendering produces, per variant:
element = `<`, tag, one space plus the rendering of each attribute in stored order,
then `/>` (self-closing) or `>`, the rendering of each child in stored order, `</`,
tag, `>`; attribute = key verbatim, plus `="`, escaped value, `"` when the
value is non-empty; text = the escaped value. -/
def renderedBytes : Node → String
  | .mk t tag key value children attributes sc =>
    if t = NodeTypeTag then
      "<" ++ tag ++ attrsBytes attributes ++
        (if sc then "/>" else ">" ++ childBytes children ++ "</" ++ tag ++ ">")
    else if t = NodeTypeAttr then
      if value = "" then key else key ++ "=\"" ++ escapeString value ++ "\""
    else if t = NodeTypeText then
      escapeString value
    else ""

/-- Rendering of an attribute list: a single space before the rendering of
each attribute, in stored order. -/
def attrsBytes : List Node → String
  | [] => ""
  | a :: rest => " " ++ renderedBytes a ++ attrsBytes rest

/-- Rendering of a child list: the rendering of each child, in stored order. -/
def childBytes : List Node → String
  | [] => ""
  | c :: rest => renderedBytes c ++ childBytes rest

end

mutual

/-- How many sink writes a successful render of a node performs. -/
def writeCount : Node → Nat
  | .mk t _ _ value children attributes sc =>
    if t = NodeTypeTag then
      2 + attrsWC attributes + (if sc then 1 else 1 + childWC children + 3)
    else if t = NodeTypeAttr then
      if value = "" then 1 else 4
    else if t = NodeTypeText then 1
    else 0

/-- Successful write count of an attribute list (one extra space write per
attribute). -/
def attrsWC : List Node → Nat
  | [] => 0
  | a :: rest => 1 + writeCount a + attrsWC rest

/-- Successful write count of a child list. -/
def childWC : List Node → Nat
  | [] => 0
  | c :: rest => writeCount c + childWC rest

end

/-- The Attribute-variant members of a list, in order (spec-side description
of the partition). -/
def specAttrs (nodes : List Node) : List Node :=
  nodes.filter (fun m => decide (m.type = NodeTypeAttr))

/-- The non-Attribute-variant members of a list, in order (spec-side
description of the partition). -/
def specChildren (nodes : List Node) : List Node :=
  nodes.filter (fun m => !decide (m.type = NodeTypeAttr))

/-- On a never-failing sink every write succeeds and appends its data. -/
theorem writeS_ok (s : Sink) (h : s.failAt = none) (st : WState) (d : String) :
    writeS s st d = (⟨st.count + 1, st.out ++ d⟩, none) := by
  rw [writeS, h]
  simp

mutual

/-- On a never-failing sink, `render` of a well-formed node succeeds, leaves
the node unchanged, attempts exactly `writeCount n` writes, and appends
exactly `renderedBytes n` to the sink. -/
theorem render_ok (s : Sink) (h : s.failAt = none) :
    ∀ (n : Node) (st : WState), wellFormed n = true →
      render n s st = (n, ⟨st.count + writeCount n, st.out ++ renderedBytes n⟩, none) := by
  intro n st hw
  cases n with
  | mk t tag key value cs ats sc =>
    rw [wellFormed] at hw
    simp only [Bool.and_eq_true, Bool.or_eq_true, decide_eq_true_eq] at hw
    obtain ⟨⟨ht, hcs⟩, hats⟩ := hw
    rw [render, writeCount, renderedBytes]
    rcases ht with (ht | ht) | ht
    · subst ht
      rw [if_pos rfl, writeS_ok s h]
      simp only
      rw [writeS_ok s h]
      simp only
      rw [renderAttrLoop_ok s h ats _ hats]
      simp only
      cases sc with
      | true =>
        rw [if_pos rfl, writeS_ok s h]
        simp only [if_pos rfl]
        refine congrArg _ (congrArg₂ _ ?_ rfl)
        simp [String.append_assoc]
        omega
      | false =>
        rw [if_neg (by simp), writeS_ok s h]
        simp only
        rw [renderChildLoop_ok s h cs _ hcs]
        simp only
        rw [writeS_ok s h]
        simp only
        rw [writeS_ok s h]
        simp only
        rw [writeS_ok s h]
        simp only
        refine congrArg _ (congrArg₂ _ ?_ rfl)
        simp [String.append_assoc]
        omega
    · subst ht
      rw [if_neg (by rw [NodeTypeAttr, NodeTypeTag]; omega), if_pos rfl]
      rw [renderAttr]
      simp only [Node.key, Node.value]
      rw [writeS_ok s h]
      simp only
      by_cases hv : value = ""
      · rw [if_neg (by simp [hv]), if_pos hv, if_pos hv]
        rfl
      · rw [if_pos (by simp [hv]), writeS_ok s h]
        simp only
        rw [writeS_ok s h]
        simp only
        rw [writeS_ok s h]
        simp only [if_neg hv]
        refine congrArg _ (congrArg₂ _ ?_ rfl)
        simp [NodeTypeTag, NodeTypeAttr, String.append_assoc]
    · subst ht
      rw [if_neg (by rw [NodeTypeText, NodeTypeTag]; omega),
          if_neg (by rw [NodeTypeText, NodeTypeAttr]; omega), if_pos rfl]
      rw [renderText]
      simp only [Node.value]
      rw [writeS_ok s h]
      rfl

/-- On a never-failing sink the attribute loop renders each attribute with a
leading space, in order, leaving the list unchanged. -/
theorem renderAttrLoop_ok (s : Sink) (h : s.failAt = none) :
    ∀ (l : List Node) (st : WState), wfList l = true →
      renderAttrLoop l s st = (l, ⟨st.count + attrsWC l, st.out ++ attrsBytes l⟩, none) := by
  intro l st hw
  cases l with
  | nil =>
    rw [renderAttrLoop, attrsWC, attrsBytes]
    simp
  | cons a rest =>
    rw [wfList] at hw
    simp only [Bool.and_eq_true] at hw
    obtain ⟨ha, hrest⟩ := hw
    rw [renderAttrLoop, writeS_ok s h]
    simp only
    rw [render_ok s h a _ ha]
    simp only
    rw [renderAttrLoop_ok s h rest _ hrest]
    simp only [attrsWC, attrsBytes]
    refine congrArg _ (congrArg₂ _ ?_ rfl)
    simp [String.append_assoc]
    omega

/-- On a never-failing sink the child loop renders each child in order,
leaving the list unchanged. -/
theorem renderChildLoop_ok (s : Sink) (h : s.failAt = none) :
    ∀ (l : List Node) (st : WState), wfList l = true →
      renderChildLoop l s st = (l, ⟨st.count + childWC l, st.out ++ childBytes l⟩, none) := by
  intro l st hw
  cases l with
  | nil =>
    rw [renderChildLoop, childWC, childBytes]
    simp
  | cons c rest =>
    rw [wfList] at hw
    simp only [Bool.and_eq_true] at hw
    obtain ⟨hc, hrest⟩ := hw
    rw [renderChildLoop, render_ok s h c _ hc]
    simp only
    rw [renderChildLoop_ok s h rest _ hrest]
    simp only [childWC, childBytes]
    refine congrArg _ (congrArg₂ _ ?_ rfl)
    simp [String.append_assoc]
    omega

end

mutual

/-- Source `Render` leaves the node — every field, recursively — unchanged, whatever
the sink does and whether the call succeeds or fails. -/
theorem render_pres : ∀ (n : Node) (s : Sink) (st : WState), (render n s st).1 = n := by
  intro n s st
  cases n with
  | mk t tag key value cs ats sc =>
    rw [render]
    by_cases ht0 : t = NodeTypeTag
    · rw [if_pos ht0]
      rcases h1 : writeS s st "<" with ⟨st1, r1⟩
      cases r1 with
      | some e => rfl
      | none =>
        simp only
        rcases h2 : writeS s st1 tag with ⟨st2, r2⟩
        cases r2 with
        | some e => rfl
        | none =>
          simp only
          rcases h3 : renderAttrLoop ats s st2 with ⟨ats2, st3, r3⟩
          have hp3 : ats2 = ats := by
            have hp := renderAttrLoop_pres ats s st2
            rw [h3] at hp
            exact hp
          cases r3 with
          | some e => rw [hp3]
          | none =>
            simp only
            cases sc with
            | true =>
              rw [hp3]
              rfl
            | false =>
              rw [if_neg (by decide)]
              rcases h4 : writeS s st3 ">" with ⟨st4, r4⟩
              cases r4 with
              | some e => rw [hp3]
              | none =>
                simp only
                rcases h5 : renderChildLoop cs s st4 with ⟨cs2, st5, r5⟩
                have hp5 : cs2 = cs := by
                  have hp := renderChildLoop_pres cs s st4
                  rw [h5] at hp
                  exact hp
                cases r5 with
                | some e => rw [hp3, hp5]
                | none =>
                  simp only
                  rcases h6 : writeS s st5 "</" with ⟨st6, r6⟩
                  cases r6 with
                  | some e => rw [hp3, hp5]
                  | none =>
                    simp only
                    rcases h7 : writeS s st6 tag with ⟨st7, r7⟩
                    cases r7 with
                    | some e => rw [hp3, hp5]
                    | none =>
                      simp only
                      rw [hp3, hp5]
    · rw [if_neg ht0]
      by_cases ht1 : t = NodeTypeAttr
      · rw [if_pos ht1]
      · rw [if_neg ht1]
        by_cases ht2 : t = NodeTypeText
        · rw [if_pos ht2]
        · rw [if_neg ht2]

/-- The attribute loop leaves the attribute list unchanged. -/
theorem renderAttrLoop_pres : ∀ (l : List Node) (s : Sink) (st : WState),
    (renderAttrLoop l s st).1 = l := by
  intro l s st
  cases l with
  | nil => rw [renderAttrLoop]
  | cons a rest =>
    rw [renderAttrLoop]
    rcases h1 : writeS s st " " with ⟨st1, r1⟩
    cases r1 with
    | some e => rfl
    | none =>
      simp only
      rcases h2 : render a s st1 with ⟨a2, st2, r2⟩
      have hp2 : a2 = a := by
        have hp := render_pres a s st1
        rw [h2] at hp
        exact hp
      cases r2 with
      | some e => rw [hp2]
      | none =>
        simp only
        rcases h3 : renderAttrLoop rest s st2 with ⟨rest2, st3, r3⟩
        have hp3 : rest2 = rest := by
          have hp := renderAttrLoop_pres rest s st2
          rw [h3] at hp
          exact hp
        rw [hp2, hp3]

/-- The child loop leaves the child list unchanged. -/
theorem renderChildLoop_pres : ∀ (l : List Node) (s : Sink) (st : WState),
    (renderChildLoop l s st).1 = l := by
  intro l s st
  cases l with
  | nil => rw [renderChildLoop]
  | cons c rest =>
    rw [renderChildLoop]
    rcases h1 : render c s st with ⟨c2, st1, r1⟩
    have hp1 : c2 = c := by
      have hp := render_pres c s st
      rw [h1] at hp
      exact hp
    cases r1 with
    | some e => rw [hp1]
    | none =>
      simp only
      rcases h2 : renderChildLoop rest s st1 with ⟨rest2, st2, r2⟩
      have hp2 : rest2 = rest := by
        have hp := renderChildLoop_pres rest s st1
        rw [h2] at hp
        exact hp
      rw [hp1, hp2]

end

/-- The write/error contract of one rendering step on sink `s`, from sink
state `st` to `st2` with result `r`: the attempted-write count only grows; an
error is exactly the own error value of the sink, produced by the failing
write at the failing index `k` of the sink, and that failing write is the last one attempted
(`st2.count = k + 1`: the step stops at once, no retry, no further writes);
success means no attempted write index hit the failing index. -/
def Good (s : Sink) (st st2 : WState) (r : Option RenderErr) : Prop :=
  st.count ≤ st2.count ∧
  (∀ e, r = some e →
     ∃ k, s.failAt = some k ∧ st.count ≤ k ∧ st2.count = k + 1 ∧
       e = RenderErr.sinkErr s.errMsg) ∧
  (r = none → ∀ k, s.failAt = some k → ¬(st.count ≤ k ∧ k < st2.count))

/-- A step that does nothing satisfies the contract. -/
theorem good_none_refl (s : Sink) (st : WState) : Good s st st none := by
  refine ⟨le_refl _, ?_, ?_⟩
  · intro e he
    simp at he
  · intro _ k _ hk
    omega

/-- A single sink write satisfies the contract. -/
theorem good_write (s : Sink) (st : WState) (d : String) :
    Good s st (writeS s st d).1 (writeS s st d).2 := by
  rw [writeS]
  by_cases hf : s.failAt = some st.count
  · rw [if_pos hf]
    refine ⟨Nat.le_succ _, ?_, ?_⟩
    · intro e he
      have he2 : RenderErr.sinkErr s.errMsg = e := by
        injection he
      exact ⟨st.count, hf, le_refl _, rfl, he2.symm⟩
    · intro hn
      simp at hn
  · rw [if_neg hf]
    refine ⟨Nat.le_succ _, ?_, ?_⟩
    · intro e he
      simp at he
    · intro _ k hk hcontra
      obtain ⟨hk1, hk2⟩ := hcontra
      have hk2b : k < st.count + 1 := hk2
      have hkeq : k = st.count := by omega
      rw [hkeq] at hk
      exact hf hk

/-- The contract composes: a successful step followed by any step. -/
theorem good_comp (s : Sink) (st st1 st2 : WState) (r : Option RenderErr)
    (g1 : Good s st st1 none) (g2 : Good s st1 st2 r) : Good s st st2 r := by
  obtain ⟨le1, _, no1⟩ := g1
  obtain ⟨le2, err2, no2⟩ := g2
  refine ⟨le_trans le1 le2, ?_, ?_⟩
  · intro e he
    obtain ⟨k, hk, hk1, hk2, hk3⟩ := err2 e he
    exact ⟨k, hk, le_trans le1 hk1, hk2, hk3⟩
  · rintro hn k hk ⟨hka, hkb⟩
    by_cases hcase : k < st1.count
    · exact no1 rfl k hk ⟨hka, hcase⟩
    · exact no2 hn k hk ⟨by omega, hkb⟩

/-- Source `renderText` satisfies the write/error contract. -/
theorem renderText_good (n : Node) (s : Sink) (st : WState) :
    Good s st (renderText n s st).1 (renderText n s st).2 := by
  rw [renderText]
  exact good_write s st _

/-- Source `renderAttr` satisfies the write/error contract. -/
theorem renderAttr_good (n : Node) (s : Sink) (st : WState) :
    Good s st (renderAttr n s st).1 (renderAttr n s st).2 := by
  rw [renderAttr]
  rcases h1 : writeS s st n.key with ⟨st1, r1⟩
  have g1 := good_write s st n.key
  rw [h1] at g1
  cases r1 with
  | some e => exact g1
  | none =>
    simp only
    by_cases hv : n.value ≠ ""
    · rw [if_pos hv]
      rcases h2 : writeS s st1 "=\"" with ⟨st2, r2⟩
      have g2 := good_write s st1 "=\""
      rw [h2] at g2
      cases r2 with
      | some e => exact good_comp s st st1 st2 _ g1 g2
      | none =>
        simp only
        rcases h3 : writeS s st2 (escapeString n.value) with ⟨st3, r3⟩
        have g3 := good_write s st2 (escapeString n.value)
        rw [h3] at g3
        cases r3 with
        | some e =>
          exact good_comp s st st1 st3 _ g1 (good_comp s st1 st2 st3 _ g2 g3)
        | none =>
          simp only
          have g4 := good_write s st3 "\""
          exact good_comp s st st1 _ _ g1
            (good_comp s st1 st2 _ _ g2 (good_comp s st2 st3 _ _ g3 g4))
    · rw [if_neg hv]
      exact g1

mutual

/-- Source `Render` of a node whose every variant is defined satisfies the
write/error contract: counts grow, an error is the sink error returned at
once by the failing write, success means no attempted write failed. -/
theorem render_good (s : Sink) :
    ∀ (n : Node) (st : WState), wellFormed n = true →
      Good s st (render n s st).2.1 (render n s st).2.2 := by
  intro n st hw
  cases n with
  | mk t tag key value cs ats sc =>
    rw [wellFormed] at hw
    simp only [Bool.and_eq_true, Bool.or_eq_true, decide_eq_true_eq] at hw
    obtain ⟨⟨ht, hcs⟩, hats⟩ := hw
    rw [render]
    rcases ht with (ht | ht) | ht
    · rw [if_pos ht]
      rcases h1 : writeS s st "<" with ⟨st1, r1⟩
      have g1 := good_write s st "<"
      rw [h1] at g1
      cases r1 with
      | some e => exact g1
      | none =>
        simp only
        rcases h2 : writeS s st1 tag with ⟨st2, r2⟩
        have g2 := good_write s st1 tag
        rw [h2] at g2
        cases r2 with
        | some e => exact good_comp s st st1 st2 _ g1 g2
        | none =>
          simp only
          have acc2 := good_comp s st st1 st2 _ g1 g2
          rcases h3 : renderAttrLoop ats s st2 with ⟨ats2, st3, r3⟩
          have g3 := renderAttrLoop_good s ats st2 hats
          rw [h3] at g3
          cases r3 with
          | some e => exact good_comp s st st2 st3 _ acc2 g3
          | none =>
            simp only
            have acc3 := good_comp s st st2 st3 _ acc2 g3
            cases sc with
            | true =>
              rw [if_pos rfl]
              have g4 := good_write s st3 "/>"
              exact good_comp s st st3 _ _ acc3 g4
            | false =>
              rw [if_neg (by decide)]
              rcases h4 : writeS s st3 ">" with ⟨st4, r4⟩
              have g4 := good_write s st3 ">"
              rw [h4] at g4
              cases r4 with
              | some e => exact good_comp s st st3 st4 _ acc3 g4
              | none =>
                simp only
                have acc4 := good_comp s st st3 st4 _ acc3 g4
                rcases h5 : renderChildLoop cs s st4 with ⟨cs2, st5, r5⟩
                have g5 := renderChildLoop_good s cs st4 hcs
                rw [h5] at g5
                cases r5 with
                | some e => exact good_comp s st st4 st5 _ acc4 g5
                | none =>
                  simp only
                  have acc5 := good_comp s st st4 st5 _ acc4 g5
                  rcases h6 : writeS s st5 "</" with ⟨st6, r6⟩
                  have g6 := good_write s st5 "</"
                  rw [h6] at g6
                  cases r6 with
                  | some e => exact good_comp s st st5 st6 _ acc5 g6
                  | none =>
                    simp only
                    have acc6 := good_comp s st st5 st6 _ acc5 g6
                    rcases h7 : writeS s st6 tag with ⟨st7, r7⟩
                    have g7 := good_write s st6 tag
                    rw [h7] at g7
                    cases r7 with
                    | some e => exact good_comp s st st6 st7 _ acc6 g7
                    | none =>
                      simp only
                      have acc7 := good_comp s st st6 st7 _ acc6 g7
                      have g8 := good_write s st7 ">"
                      exact good_comp s st st7 _ _ acc7 g8
    · rw [if_neg (by rw [ht, NodeTypeAttr, NodeTypeTag]; omega), if_pos ht]
      have gA := renderAttr_good (.mk t tag key value cs ats sc) s st
      exact gA
    · rw [if_neg (by rw [ht, NodeTypeText, NodeTypeTag]; omega),
          if_neg (by rw [ht, NodeTypeText, NodeTypeAttr]; omega), if_pos ht]
      have gT := renderText_good (.mk t tag key value cs ats sc) s st
      exact gT

/-- The attribute loop satisfies the write/error contract. -/
theorem renderAttrLoop_good (s : Sink) :
    ∀ (l : List Node) (st : WState), wfList l = true →
      Good s st (renderAttrLoop l s st).2.1 (renderAttrLoop l s st).2.2 := by
  intro l st hw
  cases l with
  | nil =>
    rw [renderAttrLoop]
    exact good_none_refl s st
  | cons a rest =>
    rw [wfList] at hw
    simp only [Bool.and_eq_true] at hw
    obtain ⟨ha, hrest⟩ := hw
    rw [renderAttrLoop]
    rcases h1 : writeS s st " " with ⟨st1, r1⟩
    have g1 := good_write s st " "
    rw [h1] at g1
    cases r1 with
    | some e => exact g1
    | none =>
      simp only
      rcases h2 : render a s st1 with ⟨a2, st2, r2⟩
      have g2 := render_good s a st1 ha
      rw [h2] at g2
      cases r2 with
      | some e => exact good_comp s st st1 st2 _ g1 g2
      | none =>
        simp only
        have acc := good_comp s st st1 st2 _ g1 g2
        rcases h3 : renderAttrLoop rest s st2 with ⟨rest2, st3, r3⟩
        have g3 := renderAttrLoop_good s rest st2 hrest
        rw [h3] at g3
        exact good_comp s st st2 st3 _ acc g3

/-- The child loop satisfies the write/error contract. -/
theorem renderChildLoop_good (s : Sink) :
    ∀ (l : List Node) (st : WState), wfList l = true →
      Good s st (renderChildLoop l s st).2.1 (renderChildLoop l s st).2.2 := by
  intro l st hw
  cases l with
  | nil =>
    rw [renderChildLoop]
    exact good_none_refl s st
  | cons c rest =>
    rw [wfList] at hw
    simp only [Bool.and_eq_true] at hw
    obtain ⟨hc, hrest⟩ := hw
    rw [renderChildLoop]
    rcases h1 : render c s st with ⟨c2, st1, r1⟩
    have g1 := render_good s c st hc
    rw [h1] at g1
    cases r1 with
    | some e => exact g1
    | none =>
      simp only
      rcases h2 : renderChildLoop rest s st1 with ⟨rest2, st2, r2⟩
      have g2 := renderChildLoop_good s rest st1 hrest
      rw [h2] at g2
      exact good_comp s st st1 st2 _ g1 g2

end

/-- The accumulator loop of `separateChildrenAndAttrs` partitions by variant,
keeping input order: non-attributes go to the first list, attributes to the
second. -/
theorem sepLoop_eq (nodes : List Node) : ∀ (acc1 acc2 : List Node),
    sepLoop nodes acc1 acc2 = (acc1 ++ specChildren nodes, acc2 ++ specAttrs nodes) := by
  induction nodes with
  | nil =>
    intro acc1 acc2
    rw [sepLoop]
    simp [specChildren, specAttrs]
  | cons m rest ih =>
    intro acc1 acc2
    rw [sepLoop]
    by_cases hm : m.type = NodeTypeAttr
    · rw [if_pos hm, ih]
      simp [specChildren, specAttrs, List.filter_cons, hm]
    · rw [if_neg hm, ih]
      simp [specChildren, specAttrs, List.filter_cons, hm]

/-- Source `separateChildrenAndAttrs` returns exactly the order-preserving partition
of its input by variant. -/
theorem separate_eq (nodes : List Node) :
    separateChildrenAndAttrs nodes = (specChildren nodes, specAttrs nodes) := by
  rw [separateChildrenAndAttrs, sepLoop_eq]
  simp

/-- C1: for every Element-variant node (over the defined variants) rendered to
a never-failing sink, the bytes written are exactly `<`, the tag name, a
single space plus the rendering of each attribute in stored order, then `/>` if the
self-closing flag is set, otherwise `>`, the rendering of each child in stored
order, `</`, the tag name, and `>`. -/
theorem element_render_byte_order (n : Node) (s : Sink) (st : WState)
    (hf : s.failAt = none) (ht : n.type = NodeTypeTag) (hw : wellFormed n = true) :
    render n s st = (n, ⟨st.count + writeCount n,
      st.out ++ ("<" ++ n.tag ++ attrsBytes n.attributes ++
        (if n.selfClose then "/>"
         else ">" ++ childBytes n.children ++ "</" ++ n.tag ++ ">"))⟩, none) := by
  have h := render_ok s hf n st hw
  rw [h]
  cases n with
  | mk t tag key value cs ats sc =>
    simp only [Node.type] at ht
    rw [renderedBytes, if_pos ht]
    rfl

/-- Witness for C1 at the concrete scenario
`Div(Class("container"), H1(Text("Welcome!")))`. -/
theorem element_render_byte_order_witness :
    render (Div [Class "container", H1 [Text "Welcome!"]]) ⟨none, "boom"⟩ ⟨0, ""⟩
      = (Div [Class "container", H1 [Text "Welcome!"]],
         ⟨18, "<div class=\"container\"><h1>Welcome!</h1></div>"⟩, none) := by
  have h := element_render_byte_order (Div [Class "container", H1 [Text "Welcome!"]])
    ⟨none, "boom"⟩ ⟨0, ""⟩ rfl (by decide) (by decide)
  rw [h]
  rfl

/-- C2: rendering a Text node writes exactly the HTML-escaped value, each
special character escaped exactly once (each input character is mapped
independently by `escapeChar`); concretely, Text of the string made of
less-than, script, greater-than, ampersand, double quote, single quote
renders to `&lt;script&gt;&amp;&#34;&#39;`. -/
theorem text_render_escaped_once :
    (∀ (T : String) (s : Sink) (st : WState), s.failAt = none →
       render (Text T) s st = (Text T, ⟨st.count + 1, st.out ++ escapeString T⟩, none))
    ∧ render (Text ("<script>&\"" ++ String.singleton (Char.ofNat 39))) ⟨none, ""⟩ ⟨0, ""⟩
        = (Text ("<script>&\"" ++ String.singleton (Char.ofNat 39)),
           ⟨1, "&lt;script&gt;&amp;&#34;&#39;"⟩, none) := by
  constructor
  · intro T s st hf
    have h := render_ok s hf (Text T) st rfl
    rw [h]
    rfl
  · rfl

/-- Witness for C2 on a string with one escapable character. -/
theorem text_render_escaped_once_witness :
    render (Text "a&b") ⟨none, "x"⟩ ⟨3, "y"⟩
      = (Text "a&b", ⟨4, "ya&amp;b"⟩, none) := by
  have h := text_render_escaped_once.1 "a&b" ⟨none, "x"⟩ ⟨3, "y"⟩ rfl
  rw [h]
  rfl

/-- C3: rendering an Attribute-variant node to a never-failing sink writes the
key verbatim (never escaped) followed by `="`, the escaped value, `"` when the
value is non-empty, and the bare key alone when the value is empty. -/
theorem attr_render_spec (n : Node) (s : Sink) (st : WState)
    (hf : s.failAt = none) (ht : n.type = NodeTypeAttr) :
    render n s st = (n, ⟨st.count + (if n.value = "" then 1 else 4),
      st.out ++ (if n.value = "" then n.key
                 else n.key ++ "=\"" ++ escapeString n.value ++ "\"")⟩, none) := by
  cases n with
  | mk t tag key value cs ats sc =>
    simp only [Node.type] at ht
    subst ht
    rw [render, if_neg (by decide), if_pos rfl, renderAttr]
    simp only [Node.key, Node.value]
    rw [writeS_ok s hf]
    simp only
    by_cases hv : value = ""
    · rw [if_neg (by simp [hv])]
      rw [if_pos hv, if_pos hv]
    · rw [if_pos (by simp [hv]), writeS_ok s hf]
      simp only
      rw [writeS_ok s hf]
      simp only
      rw [writeS_ok s hf]
      rw [if_neg hv, if_neg hv]
      refine congrArg _ (congrArg₂ _ ?_ rfl)
      simp [String.append_assoc]

/-- Witness for C3 with a non-empty value containing an escapable character,
starting from a non-initial sink state. -/
theorem attr_render_spec_witness :
    render (Attr "data-x" "a<b") ⟨none, "e"⟩ ⟨5, "p"⟩
      = (Attr "data-x" "a<b", ⟨9, "pdata-x=\"a&lt;b\""⟩, none) := by
  have h := attr_render_spec (Attr "data-x" "a<b") ⟨none, "e"⟩ ⟨5, "p"⟩ rfl rfl
  rw [h]
  rfl

/-- C4: rendering a self-closing Element to a never-failing sink writes no
child content and no closing tag and ends with `/>`: the output is
`<`, tag, the attributes, `/>`, independent of the child list `cs`, and the
sink-observable result equals that of the same element with no children at
all. -/
theorem selfclosing_drops_children (tag key value : String) (cs ats : List Node)
    (s : Sink) (st : WState) (hf : s.failAt = none) (hats : wfList ats = true) :
    render (.mk NodeTypeTag tag key value cs ats true) s st
      = (.mk NodeTypeTag tag key value cs ats true,
         ⟨st.count + (2 + attrsWC ats + 1),
          st.out ++ ("<" ++ tag ++ attrsBytes ats ++ "/>")⟩, none)
    ∧ (render (.mk NodeTypeTag tag key value cs ats true) s st).2
      = (render (.mk NodeTypeTag tag key value [] ats true) s st).2 := by
  have main : ∀ cs2 : List Node, render (.mk NodeTypeTag tag key value cs2 ats true) s st
      = (.mk NodeTypeTag tag key value cs2 ats true,
         ⟨st.count + (2 + attrsWC ats + 1),
          st.out ++ ("<" ++ tag ++ attrsBytes ats ++ "/>")⟩, none) := by
    intro cs2
    rw [render, if_pos rfl, writeS_ok s hf]
    simp only
    rw [writeS_ok s hf]
    simp only
    rw [renderAttrLoop_ok s hf ats _ hats]
    simp only
    rw [if_pos trivial, writeS_ok s hf]
    refine congrArg _ (congrArg₂ _ ?_ rfl)
    simp [String.append_assoc]
    omega
  refine ⟨main cs, ?_⟩
  rw [main cs, main []]

/-- Witness for C4: an `input` element with a child that is dropped from the
output. -/
theorem selfclosing_drops_children_witness :
    render (.mk NodeTypeTag "input" "" "" [Text "zap"] [ID "x"] true) ⟨none, "b"⟩ ⟨0, ""⟩
      = (.mk NodeTypeTag "input" "" "" [Text "zap"] [ID "x"] true,
         ⟨8, "<input id=\"x\"/>"⟩, none) := by
  have h := (selfclosing_drops_children "input" "" "" [Text "zap"] [ID "x"]
    ⟨none, "b"⟩ ⟨0, ""⟩ rfl (by decide)).1
  rw [h]
  rfl

/-- C5: every element constructor returns an Element node with its fixed tag,
the Attribute-variant inputs as attributes in input order, all other inputs as
children in input order, and the self-closing flag set exactly for `Input` and
`Img`. -/
theorem constructors_partition_inputs (nodes : List Node) :
    Div nodes = .mk NodeTypeTag "div" "" "" (specChildren nodes) (specAttrs nodes) false
  ∧ Span nodes = .mk NodeTypeTag "span" "" "" (specChildren nodes) (specAttrs nodes) false
  ∧ P nodes = .mk NodeTypeTag "p" "" "" (specChildren nodes) (specAttrs nodes) false
  ∧ H1 nodes = .mk NodeTypeTag "h1" "" "" (specChildren nodes) (specAttrs nodes) false
  ∧ A nodes = .mk NodeTypeTag "a" "" "" (specChildren nodes) (specAttrs nodes) false
  ∧ Button nodes = .mk NodeTypeTag "button" "" "" (specChildren nodes) (specAttrs nodes) false
  ∧ Input nodes = .mk NodeTypeTag "input" "" "" (specChildren nodes) (specAttrs nodes) true
  ∧ Img nodes = .mk NodeTypeTag "img" "" "" (specChildren nodes) (specAttrs nodes) true := by
  have h := separate_eq nodes
  refine ⟨?_, ?_, ?_, ?_, ?_, ?_, ?_, ?_⟩
  · rw [Div, h]
  · rw [Span, h]
  · rw [P, h]
  · rw [H1, h]
  · rw [A, h]
  · rw [Button, h]
  · rw [Input, h]
  · rw [Img, h]

/-- C6: `Add` on an Element keeps all previously stored attributes and
children in place, appends the Attribute-variant arguments to the attribute
sequence and the others to the child sequence in argument order, leaves every
other field unchanged, and does nothing on an empty argument list. -/
theorem add_appends_partitioned (n : Node) (nodes : List Node)
    (ht : n.type = NodeTypeTag) :
    (n.add nodes).children = n.children ++ specChildren nodes
  ∧ (n.add nodes).attributes = n.attributes ++ specAttrs nodes
  ∧ (n.add nodes).type = n.type ∧ (n.add nodes).tag = n.tag
  ∧ (n.add nodes).key = n.key ∧ (n.add nodes).value = n.value
  ∧ (n.add nodes).selfClose = n.selfClose
  ∧ n.add [] = n := by
  cases n with
  | mk t tag key value cs ats sc =>
    have hc : (if (specChildren nodes).length > 0 then cs ++ specChildren nodes else cs)
        = cs ++ specChildren nodes := by
      by_cases hl : (specChildren nodes).length > 0
      · rw [if_pos hl]
      · rw [if_neg hl]
        have h0 : specChildren nodes = [] := by
          cases hsc : specChildren nodes with
          | nil => rfl
          | cons x xs =>
            rw [hsc] at hl
            simp at hl
        rw [h0]
        simp
    have ha : (if (specAttrs nodes).length > 0 then ats ++ specAttrs nodes else ats)
        = ats ++ specAttrs nodes := by
      by_cases hl : (specAttrs nodes).length > 0
      · rw [if_pos hl]
      · rw [if_neg hl]
        have h0 : specAttrs nodes = [] := by
          cases hsa : specAttrs nodes with
          | nil => rfl
          | cons x xs =>
            rw [hsa] at hl
            simp at hl
        rw [h0]
        simp
    have hadd : (Node.mk t tag key value cs ats sc).add nodes
        = .mk t tag key value (cs ++ specChildren nodes) (ats ++ specAttrs nodes) sc := by
      rw [Node.add, separate_eq]
      simp only
      rw [hc, ha]

    refine ⟨by rw [hadd]; rfl, by rw [hadd]; rfl, by rw [hadd]; rfl, by rw [hadd]; rfl,
      by rw [hadd]; rfl, by rw [hadd]; rfl, by rw [hadd]; rfl, by rfl⟩

/-- Witness for C6 on a concrete Element with one prior child and attribute. -/
theorem add_appends_partitioned_witness :
    ((Div [Text "old", Class "c0"]).add [Class "a", Text "t"]).children
      = [Text "old", Text "t"]
  ∧ ((Div [Text "old", Class "c0"]).add [Class "a", Text "t"]).attributes
      = [Class "c0", Class "a"] := by
  have h := add_appends_partitioned (Div [Text "old", Class "c0"]) [Class "a", Text "t"]
    (by decide)
  exact ⟨by rw [h.1]; rfl, by rw [h.2.1]; rfl⟩

/-- C7: for a tree over the defined variants, Render succeeds on a
never-failing sink; it returns an error exactly when an attempted write
fails, and then the error is the own error value of the sink, returned by the
failing write at the failing index `k` of the sink, with `k + 1` total attempted writes —
the failing write is the last one attempted, so the render stops at once with
no retry. -/
theorem render_error_contract (n : Node) (s : Sink) (st : WState)
    (hw : wellFormed n = true) :
    (s.failAt = none → (render n s st).2.2 = none)
  ∧ (∀ e, (render n s st).2.2 = some e →
       ∃ k, s.failAt = some k ∧ st.count ≤ k ∧ (render n s st).2.1.count = k + 1
         ∧ e = RenderErr.sinkErr s.errMsg)
  ∧ ((render n s st).2.2 = none →
       ∀ k, s.failAt = some k → ¬(st.count ≤ k ∧ k < (render n s st).2.1.count)) := by
  refine ⟨?_, ?_, ?_⟩
  · intro hf
    rw [render_ok s hf n st hw]
  · exact (render_good s n st hw).2.1
  · exact (render_good s n st hw).2.2

/-- Witness for C7: a paragraph element against a sink failing at write
index 1; the second write fails, the sink error comes back verbatim, and
exactly two writes were attempted (the failing one was the last). -/
theorem render_error_contract_witness :
    (render (P [Text "hi"]) (Sink.mk (some 1) "boom") (WState.mk 0 "")).2.2
      = some (RenderErr.sinkErr "boom")
  ∧ (render (P [Text "hi"]) (Sink.mk (some 1) "boom") (WState.mk 0 "")).2.1.count = 2 := by
  have h := (render_error_contract (P [Text "hi"]) ⟨some 1, "boom"⟩ ⟨0, ""⟩ (by decide)).2.1
    (RenderErr.sinkErr "boom") rfl
  obtain ⟨k, hk, hk1, hk2, hk3⟩ := h
  have hk4 : k = 1 := by
    injection hk with h5
    exact h5.symm
  constructor
  · rfl
  · rw [hk2, hk4]

/-- C8: a node whose discriminant is none of the three defined values makes
Render return the unknown-variant error at once — for every sink, with the
sink state untouched (no write is required to fail) — and no public
constructor produces such a discriminant. -/
theorem unknown_variant_errors :
    (∀ (n : Node) (s : Sink) (st : WState),
       ¬(n.type = NodeTypeTag ∨ n.type = NodeTypeAttr ∨ n.type = NodeTypeText) →
       render n s st = (n, st, some (RenderErr.unknownType n.type)))
  ∧ (∀ nodes : List Node, (Div nodes).type = NodeTypeTag ∧ (Span nodes).type = NodeTypeTag
      ∧ (P nodes).type = NodeTypeTag ∧ (H1 nodes).type = NodeTypeTag
      ∧ (A nodes).type = NodeTypeTag ∧ (Button nodes).type = NodeTypeTag
      ∧ (Input nodes).type = NodeTypeTag ∧ (Img nodes).type = NodeTypeTag)
  ∧ (∀ v : String, (Class v).type = NodeTypeAttr ∧ (ID v).type = NodeTypeAttr
      ∧ (Href v).type = NodeTypeAttr ∧ (Src v).type = NodeTypeAttr
      ∧ (Alt v).type = NodeTypeAttr ∧ (TypeAttr v).type = NodeTypeAttr
      ∧ (Value v).type = NodeTypeAttr ∧ (Placeholder v).type = NodeTypeAttr)
  ∧ Disabled.type = NodeTypeAttr ∧ Required.type = NodeTypeAttr
  ∧ (∀ k v : String, (Attr k v).type = NodeTypeAttr)
  ∧ (∀ c : String, (Text c).type = NodeTypeText) := by
  refine ⟨?_, ?_, ?_, rfl, rfl, fun k v => rfl, fun c => rfl⟩
  · intro n s st hbad
    cases n with
    | mk t tag key value cs ats sc =>
      simp only [Node.type] at hbad
      push_neg at hbad
      obtain ⟨h1, h2, h3⟩ := hbad
      rw [render, if_neg h1, if_neg h2, if_neg h3]
      rfl
  · intro nodes
    exact ⟨rfl, rfl, rfl, rfl, rfl, rfl, rfl, rfl⟩
  · intro v
    exact ⟨rfl, rfl, rfl, rfl, rfl, rfl, rfl, rfl⟩

/-- Witness for C8 at discriminant 7: the error is reported with the sink
state untouched, on a sink that never fails. -/
theorem unknown_variant_errors_witness :
    render (Node.mk 7 "x" "" "" [] [] false) ⟨none, ""⟩ ⟨0, ""⟩
      = (Node.mk 7 "x" "" "" [] [] false, ⟨0, ""⟩, some (RenderErr.unknownType 7)) := by
  exact unknown_variant_errors.1 (Node.mk 7 "x" "" "" [] [] false) ⟨none, ""⟩ ⟨0, ""⟩
    (by decide)

/-- C9: Render never mutates the tree: the node after the call — every field
of every node in the subtree, hence variant tag, tag name, key, value,
self-closing flag, attribute and child sequences — equals the node before,
for every sink, whether the render succeeds or fails. -/
theorem render_does_not_mutate (n : Node) (s : Sink) (st : WState) :
    (render n s st).1 = n :=
  render_pres n s st

/-- C10: the zero value of `Node` has discriminant 0, the Element variant;
rendering it on a never-failing sink succeeds (the unknown-variant branch is
not taken) and writes exactly `<></>`. -/
theorem zero_value_renders_empty_element :
    zeroNode.type = NodeTypeTag
  ∧ (∀ (s : Sink) (st : WState), s.failAt = none →
      render zeroNode s st = (zeroNode, ⟨st.count + 6, st.out ++ "<></>"⟩, none)) := by
  constructor
  · rfl
  · intro s st hf
    have h := render_ok s hf zeroNode st rfl
    rw [h]
    rfl

/-- Witness for C10 at the initial sink state. -/
theorem zero_value_renders_empty_element_witness :
    render zeroNode ⟨none, "m"⟩ ⟨0, ""⟩ = (zeroNode, ⟨6, "<></>"⟩, none) := by
  have h := zero_value_renders_empty_element.2 ⟨none, "m"⟩ ⟨0, ""⟩ rfl
  rw [h]
  rfl

end HtmlNode
